import Mathlib

/-!
Verification development for the PolyArena multiplayer arena shooter.

The server relay (`src/party/server.ts`), the client mirror store
(`src/store.ts`), the client message handlers (`src/components/GameScene.tsx`
and the `src/unnamed/part_000` variant) and the remote-player interpolation
tick (`src/components/Opponent.tsx`) are shallowly embedded below.  JS numbers
are embedded as rationals, JS string-keyed objects as association lists in
insertion order (string keys are non-index keys, so `Object.keys`/
`Object.values` enumerate them in insertion order), and the broadcast calls of
a handler as a list of outgoing messages (per-recipient exclusion lists are
not relevant to any statement proved here and are omitted).
-/

namespace PolyArena

/-- Team labels, from the `team: 'red' | 'blue'` field of the server `Player`
interface in `src/party/server.ts`. -/
inductive Team where
  | red
  | blue
deriving DecidableEq

/-- A 3-component vector of JS numbers (`{ x, y, z }`), embedded over `ℚ`. -/
structure V3 where
  x : ℚ
  y : ℚ
  z : ℚ
deriving DecidableEq

/-- The server-side `Player` record of `src/party/server.ts`. -/
structure Player where
  id : String
  nickname : String
  position : V3
  rotation : ℚ
  hp : ℚ
  score : ℚ
  isDead : Bool
  team : Team
deriving DecidableEq

/-- Lookup in a JS object embedded as an association list
(`this.players[key]`; `none` plays the role of `undefined`). -/
def alFind {α : Type} : List (String × α) → String → Option α
  | [], _ => none
  | (k, v) :: rest, key => if k = key then some v else alFind rest key

/-- Assignment `obj[key] = v` on a JS object: overwrite in place if the key is
present, append a new key at the end of the insertion order otherwise. -/
def alSet {α : Type} : List (String × α) → String → α → List (String × α)
  | [], key, v => [(key, v)]
  | (k, w) :: rest, key, v =>
      if k = key then (k, v) :: rest else (k, w) :: alSet rest key v

/-- `delete obj[key]` on a JS object (keys are unique, so filtering the key
out is the same as removing its one occurrence). -/
def alRemove {α : Type} (s : List (String × α)) (key : String) :
    List (String × α) :=
  s.filter (fun e => e.1 ≠ key)

/-- In-place mutation of the record stored under `key`, a no-op when the key
is absent (models mutating through a fetched object reference). -/
def alModify {α : Type} (s : List (String × α)) (key : String) (f : α → α) :
    List (String × α) :=
  match alFind s key with
  | none => s
  | some v => alSet s key (f v)

/-- The server's session store `this.players : Record<string, Player>`. -/
abbrev Store := List (String × Player)

/-- An inbound message after `JSON.parse` succeeded.  The typed variants carry
the fields the `switch` dispatch of `onMessage` reads; `other` is a parsed
payload whose `type` discriminator is missing (`none`) or matches no `case`
(`some tag`). -/
inductive JMsg where
  | join (id nickname : String)
  | update (id : String) (position : V3) (rotation : ℚ)
  | shoot (id : String) (position direction : V3)
  | hit (targetId sourceId : String) (damage : ℚ)
  | other (tag : Option String)
deriving DecidableEq

/-- One outgoing broadcast of the server (`this.party.broadcast(...)`). -/
inductive Out where
  | sync (players : Store)
  | updateRelay (id : String) (position : V3) (rotation : ℚ)
  | shootRelay (id : String) (position direction : V3)
  | hitEcho (targetId sourceId : String) (damage : ℚ)
deriving DecidableEq

/-- The fresh record the `join` case assigns: position `(0,1,0)`, rotation 0,
hp 100, score 0, alive, nickname defaulted by JS truthiness
(`msg.nickname || 'Unknown'`, with `""` standing for every falsy nickname),
and team chosen by the parity of `Object.keys(this.players).length`,
evaluated before the assignment lands. -/
def joinedPlayer (id nickname : String) (cnt : Nat) : Player :=
  { id := id
    nickname := if nickname = "" then "Unknown" else nickname
    position := ⟨0, 1, 0⟩
    rotation := 0
    hp := 100
    score := 0
    isDead := false
    team := if cnt % 2 = 0 then Team.blue else Team.red }

/-- The `switch (msg.type)` body of `GameServer.onMessage` in
`src/party/server.ts`, acting on an already-parsed message: returns the new
session store and the broadcasts issued, in order.  The `hit` case fetches
`target` and `source` up front and mutates through those references, so when
`targetId = sourceId` the death flags and the score bump land on the same
record, which the sequential `alSet`/`alModify` below reproduces. -/
def serverStep (m : JMsg) (s : Store) : Store × List Out :=
  match m with
  | .join id nickname =>
      let s1 := alSet s id (joinedPlayer id nickname s.length)
      (s1, [Out.sync s1])
  | .update id pos rot =>
      match alFind s id with
      | none => (s, [])
      | some p =>
          (alSet s id { p with position := pos, rotation := rot },
           [Out.updateRelay id pos rot])
  | .shoot id pos dir => (s, [Out.shootRelay id pos dir])
  | .hit targetId sourceId damage =>
      match alFind s targetId with
      | none => (s, [])
      | some t =>
          if t.isDead then (s, [])
          else
            let hp1 := t.hp - damage
            if hp1 ≤ 0 then
              let s1 := alSet s targetId { t with hp := 0, isDead := true }
              let s2 :=
                if (alFind s sourceId).isSome then
                  alModify s1 sourceId (fun q => { q with score := q.score + 1 })
                else s1
              (s2, [Out.hitEcho targetId sourceId damage, Out.sync s2])
            else
              (alSet s targetId { t with hp := hp1 },
               [Out.hitEcho targetId sourceId damage])
  | .other _ => (s, [])

/-- The one failure `onMessage` can raise: `JSON.parse(message)` throwing on
an unparsable payload. -/
inductive JsError where
  | parseError
deriving DecidableEq

/-- `GameServer.onMessage` including its first line `JSON.parse(message)`:
`none` stands for a payload `JSON.parse` rejects, which makes the handler
throw (there is no try/catch in `onMessage`); a parsed payload is dispatched
by `serverStep`. -/
def onMessage (raw : Option JMsg) (s : Store) :
    Except JsError (Store × List Out) :=
  match raw with
  | none => Except.error JsError.parseError
  | some m => Except.ok (serverStep m s)

/-- `GameServer.onClose`: delete the connection's player and broadcast a full
`sync`. -/
def onClose (connId : String) (s : Store) : Store × List Out :=
  let s1 := alRemove s connId
  (s1, [Out.sync s1])

/-- One event the server session reacts to: an inbound message or a
transport-level disconnect. -/
inductive Ev where
  | msg (m : JMsg)
  | close (id : String)
deriving DecidableEq

/-- The store transition of one event (broadcasts dropped). -/
def evStep (s : Store) (e : Ev) : Store :=
  match e with
  | .msg m => (serverStep m s).1
  | .close id => (onClose id s).1

/-- The session store reached from the initially empty room after a sequence
of events. -/
def runEvents (evs : List Ev) : Store :=
  evs.foldl evStep []

/-- Folding a list of `join` messages `(id, nickname)` into a store. -/
def applyJoins (s : Store) : List (String × String) → Store
  | [] => s
  | (id, nick) :: rest => applyJoins (serverStep (.join id nick) s).1 rest

/-- The store produced by fresh joins when the room already holds `n`
players: entry `i` carries the team of parity `n + i`. -/
def buildFrom (n : Nat) : List (String × String) → Store
  | [] => []
  | (id, nick) :: rest => (id, joinedPlayer id nick n) :: buildFrom (n + 1) rest

/-- The client-side `PlayerState` record from `types.ts` (the entries of the
Client World Mirror held by the zustand store in `src/store.ts`). -/
structure CPlayer where
  id : String
  nickname : String
  position : V3
  rotation : ℚ
  hp : ℚ
  isDead : Bool
  score : ℚ
  color : String
  team : Team
deriving DecidableEq

/-- The client mirror `players : Record<string, PlayerState>`. -/
abbrev CStore := List (String × CPlayer)

/-- The `data` argument of `updatePlayer` in `src/store.ts`, a subset of the
`PlayerState` fields: `none` marks a field the caller did not supply, so the
spread `...data` leaves it alone. -/
structure Patch where
  id : Option String := none
  nickname : Option String := none
  position : Option V3 := none
  rotation : Option ℚ := none
  hp : Option ℚ := none
  isDead : Option Bool := none
  score : Option ℚ := none
  color : Option String := none
  team : Option Team := none
deriving DecidableEq

/-- The JS object spread `{ ...base, ...data }`: every field `data` carries
overrides the base record's field. -/
def applyPatch (base : CPlayer) (d : Patch) : CPlayer :=
  { id := d.id.getD base.id
    nickname := d.nickname.getD base.nickname
    position := d.position.getD base.position
    rotation := d.rotation.getD base.rotation
    hp := d.hp.getD base.hp
    isDead := d.isDead.getD base.isDead
    score := d.score.getD base.score
    color := d.color.getD base.color
    team := d.team.getD base.team }

/-- The default record `updatePlayer` in `src/store.ts` spreads the incoming
data over when the id is new: nickname `'Unknown'`, position `(0,1,0)`,
rotation 0, hp `MAX_HP = 100` (from `constants.ts`), alive, score 0, color
`'#ffffff'`, team `'blue'`. -/
def initPlayer (id : String) : CPlayer :=
  { id := id
    nickname := "Unknown"
    position := ⟨0, 1, 0⟩
    rotation := 0
    hp := 100
    isDead := false
    score := 0
    color := "#ffffff"
    team := Team.blue }

/-- `updatePlayer` from `src/store.ts`: merge the data into the existing
record when the id is present, otherwise insert a fresh record built from the
defaults merged with the data (`{ ...state.players, [id]: ... }` adds the new
key at the end of the insertion order). -/
def updatePlayer (s : CStore) (id : String) (d : Patch) : CStore :=
  match alFind s id with
  | none => s ++ [(id, applyPatch (initPlayer id) d)]
  | some ex => alSet s id (applyPatch ex d)

/-- A server `Player` arriving inside a `sync`, viewed as the `data` object
passed to `updatePlayer(p.id, p)`: every field is present except `color`,
which the server record does not carry. -/
def serverPlayerPatch (p : Player) : Patch :=
  { id := some p.id
    nickname := some p.nickname
    position := some p.position
    rotation := some p.rotation
    hp := some p.hp
    isDead := some p.isDead
    score := some p.score
    color := none
    team := some p.team }

/-- A server-to-client message as dispatched by the client handlers: `sync`
carries `Object.values(msg.players)` in insertion order. -/
inductive CMsg where
  | sync (players : List Player)
  | update (id : String) (position : V3) (rotation : ℚ)
  | shoot (id : String) (position direction : V3)
  | hit (targetId sourceId : String) (damage : ℚ)
deriving DecidableEq

/-- The socket `message` handler of `GameSceneContent` in
`src/components/GameScene.tsx` (same dispatch as the `src/unnamed/part_001`
variant), restricted to its effect on the player mirror: `sync` applies every
received player — the locally-controlled id included — through
`updatePlayer(p.id, p)`; `update` applies position and rotation with no check
of the id; `shoot` only spawns a bullet and `hit` is an explicit no-op, so
neither touches the mirror. -/
def gameSceneOnMessage (myId : String) (m : CMsg) (s : CStore) : CStore :=
  match m with
  | .sync ps =>
      ps.foldl (fun acc p => updatePlayer acc p.id (serverPlayerPatch p)) s
  | .update id pos rot =>
      updatePlayer s id { position := some pos, rotation := some rot }
  | .shoot _ _ _ => s
  | .hit _ _ _ => s

/-- The socket `onmessage` handler of the `GameScene` variant in
`src/unnamed/part_000`, restricted to its effect on the player mirror: `sync`
and `update` skip the locally-controlled id entirely (`if (p.id !== myId)`),
`shoot` only spawns a bullet, and `hit` applies `Math.max(0, hp - damage)` and
the induced death flag to the target's entry when it exists. -/
def gameScene0OnMessage (myId : String) (m : CMsg) (s : CStore) : CStore :=
  match m with
  | .sync ps =>
      ps.foldl
        (fun acc p =>
          if p.id = myId then acc
          else updatePlayer acc p.id (serverPlayerPatch p)) s
  | .update id pos rot =>
      if id = myId then s
      else updatePlayer s id { position := some pos, rotation := some rot }
  | .shoot _ _ _ => s
  | .hit targetId _ damage =>
      match alFind s targetId with
      | none => s
      | some t =>
          let newHp := max 0 (t.hp - damage)
          updatePlayer s targetId
            { hp := some newHp, isDead := some (decide (newHp ≤ 0)) }

/-- The `onHit` callback `GameSceneContent` passes to each `Bullet` in
`src/components/GameScene.tsx`, reduced to the message it emits: the guard is
`b.ownerId === myId && targetId && targetId !== myId` (string truthiness, so a
missing or empty target id fails it) and the send happens only while the
socket is open; the payload is `(targetId, sourceId = myId, damage = 10)`. -/
def bulletOnHit (ownerId myId : String) (socketOpen : Bool)
    (targetId : Option String) : Option (String × String × ℚ) :=
  match targetId with
  | none => none
  | some t =>
      if ownerId = myId ∧ t ≠ "" ∧ t ≠ myId then
        if socketOpen then some (t, myId, 10) else none
      else none

/-- One component of `THREE.Vector3.lerp(v, alpha)`:
`this.x += (v.x - this.x) * alpha` — three.js applies `alpha` unclamped. -/
def lerp1 (d t alpha : ℚ) : ℚ := d + (t - d) * alpha

/-- One `useFrame` tick of `Opponent` in `src/components/Opponent.tsx` on the
displayed position: `groupRef.current.position.lerp(targetPos, 10 * delta)`. -/
def opponentTick (displayed target : V3) (delta : ℚ) : V3 :=
  ⟨lerp1 displayed.x target.x (10 * delta),
   lerp1 displayed.y target.y (10 * delta),
   lerp1 displayed.z target.z (10 * delta)⟩

/-- Modelled from the spec: the smoothing rule the spec states for the
interpolation layer, `displayed += (target - displayed) * min(1, k * dt)` with
`k = 10`, kept only to compare against the code's `opponentTick`. -/
def specSmoothTick (displayed target : V3) (delta : ℚ) : V3 :=
  ⟨lerp1 displayed.x target.x (min 1 (10 * delta)),
   lerp1 displayed.y target.y (min 1 (10 * delta)),
   lerp1 displayed.z target.z (min 1 (10 * delta))⟩

section AssocLemmas

variable {α : Type}

theorem alFind_alSet_self (s : List (String × α)) (k : String) (v : α) :
    alFind (alSet s k v) k = some v := by
  induction s with
  | nil => simp [alSet, alFind]
  | cons e rest ih =>
      obtain ⟨k1, w⟩ := e
      by_cases h : k1 = k
      · simp [alSet, alFind, h]
      · simp [alSet, alFind, h, ih]

theorem alFind_alSet_ne (s : List (String × α)) (k k' : String) (v : α)
    (h : k' ≠ k) : alFind (alSet s k v) k' = alFind s k' := by
  have hk : ¬k = k' := fun hkk => h hkk.symm
  induction s with
  | nil => simp [alSet, alFind, hk]
  | cons e rest ih =>
      obtain ⟨k1, w⟩ := e
      by_cases h1 : k1 = k
      · subst h1
        simp [alSet, alFind, hk]
      · simp [alSet, alFind, h1, ih]

theorem alSet_keys_of_found (s : List (String × α)) (k : String) (v : α)
    (h : (alFind s k).isSome) :
    (alSet s k v).map Prod.fst = s.map Prod.fst := by
  induction s with
  | nil => simp [alFind] at h
  | cons e rest ih =>
      obtain ⟨k1, w⟩ := e
      by_cases h1 : k1 = k
      · simp [alSet, h1]
      · simp [alFind, h1] at h
        simp [alSet, h1, ih h]

theorem alSet_of_not_found (s : List (String × α)) (k : String) (v : α)
    (h : alFind s k = none) : alSet s k v = s ++ [(k, v)] := by
  induction s with
  | nil => simp [alSet]
  | cons e rest ih =>
      obtain ⟨k1, w⟩ := e
      by_cases h1 : k1 = k
      · simp [alFind, h1] at h
      · simp [alFind, h1] at h
        simp [alSet, h1, ih h]

theorem alFind_mem (s : List (String × α)) (k : String) (v : α)
    (h : alFind s k = some v) : (k, v) ∈ s := by
  induction s with
  | nil => simp [alFind] at h
  | cons e rest ih =>
      obtain ⟨k1, w⟩ := e
      by_cases h1 : k1 = k
      · subst h1
        simp [alFind] at h
        simp [h]
      · simp [alFind, h1] at h
        exact List.mem_cons_of_mem _ (ih h)

theorem mem_alSet (s : List (String × α)) (k : String) (v : α) (e : String × α)
    (h : e ∈ alSet s k v) : e ∈ s ∨ e = (k, v) := by
  induction s with
  | nil => simp [alSet] at h; simp [h]
  | cons e1 rest ih =>
      obtain ⟨k1, w⟩ := e1
      by_cases h1 : k1 = k
      · simp [alSet, h1] at h
        rcases h with h | h
        · right; simp [h, h1]
        · left; exact List.mem_cons_of_mem _ h
      · simp [alSet, h1] at h
        rcases h with h | h
        · left; simp [h]
        · rcases ih h with h2 | h2
          · left; exact List.mem_cons_of_mem _ h2
          · right; exact h2

theorem alFind_append_of_none (s t : List (String × α)) (k : String)
    (h : alFind s k = none) : alFind (s ++ t) k = alFind t k := by
  induction s with
  | nil => simp
  | cons e rest ih =>
      obtain ⟨k1, w⟩ := e
      by_cases h1 : k1 = k
      · simp [alFind, h1] at h
      · simp [alFind, h1] at h ⊢
        exact ih h

theorem alFind_single_ne (k k' : String) (v : α) (h : k' ≠ k) :
    alFind [(k, v)] k' = none := by
  have hk : ¬k = k' := fun hkk => h hkk.symm
  simp [alFind, hk]

end AssocLemmas

/-- Claim C1: for every session store and `hit(targetId, sourceId, damage)`
whose target exists and is alive with hp `t.hp`, the step sets the target's
hp to `max 0 (t.hp - damage)`, sets its `isDead` flag exactly when the
resulting hp is 0, adds exactly 1 to the source's score precisely when this
message caused the death transition and the source exists (every id other
than the source keeps its score), and a `hit` naming an absent or already
dead target leaves the store unchanged and broadcasts nothing. -/
theorem c1_hit (s : Store) (targetId sourceId : String) (damage : ℚ) :
    (alFind s targetId = none →
        serverStep (.hit targetId sourceId damage) s = (s, [])) ∧
    (∀ t, alFind s targetId = some t → t.isDead = true →
        serverStep (.hit targetId sourceId damage) s = (s, [])) ∧
    (∀ t, alFind s targetId = some t → t.isDead = false →
        ∃ t1,
          alFind (serverStep (.hit targetId sourceId damage) s).1 targetId
              = some t1 ∧
          t1.hp = max 0 (t.hp - damage) ∧
          (t1.isDead = true ↔ t1.hp = 0) ∧
          (∀ q, alFind s sourceId = some q →
              (alFind (serverStep (.hit targetId sourceId damage) s).1
                  sourceId).map Player.score =
                some (q.score + (if t.hp - damage ≤ 0 then 1 else 0))) ∧
          (∀ k, k ≠ sourceId →
              (alFind (serverStep (.hit targetId sourceId damage) s).1
                  k).map Player.score =
                (alFind s k).map Player.score)) := by
  refine ⟨?_, ?_, ?_⟩
  · intro h
    simp [serverStep, h]
  · intro t ht hd
    simp [serverStep, ht, hd]
  · intro t ht hd
    by_cases hle : t.hp - damage ≤ 0
    · have hmax : max 0 (t.hp - damage) = 0 := max_eq_left hle
      by_cases hst : sourceId = targetId
      · subst hst
        have hstep : (serverStep (.hit sourceId sourceId damage) s).1
            = alSet (alSet s sourceId { t with hp := 0, isDead := true })
                sourceId { t with hp := 0, isDead := true, score := t.score + 1 } := by
          simp [serverStep, ht, hd, hle, alModify, alFind_alSet_self]
        refine ⟨{ t with hp := 0, isDead := true, score := t.score + 1 },
          ?_, ?_, ?_, ?_, ?_⟩
        · rw [hstep]
          exact alFind_alSet_self _ _ _
        · simp [hmax]
        · simp
        · intro q hq
          have hqt : q = t := by
            rw [ht] at hq
            exact (Option.some_injective _ hq).symm
          rw [hstep]
          simp [alFind_alSet_self, hle, hqt]
        · intro k hk
          rw [hstep, alFind_alSet_ne _ _ _ _ hk, alFind_alSet_ne _ _ _ _ hk]
      · have htgt : targetId ≠ sourceId := fun hkk => hst hkk.symm
        cases hq0 : alFind s sourceId with
        | none =>
            have hstep : (serverStep (.hit targetId sourceId damage) s).1
                = alSet s targetId { t with hp := 0, isDead := true } := by
              simp [serverStep, ht, hd, hle, hq0]
            refine ⟨{ t with hp := 0, isDead := true }, ?_, ?_, ?_, ?_, ?_⟩
            · rw [hstep]
              exact alFind_alSet_self _ _ _
            · simp [hmax]
            · simp
            · intro q hq
              exact absurd hq (by simp)
            · intro k hk
              rw [hstep]
              by_cases hkt : k = targetId
              · subst hkt
                rw [alFind_alSet_self, ht]
                rfl
              · rw [alFind_alSet_ne _ _ _ _ hkt]
        | some q0 =>
            have hs1src : alFind
                (alSet s targetId { t with hp := 0, isDead := true }) sourceId
                = some q0 := by
              rw [alFind_alSet_ne _ _ _ _ hst]
              exact hq0
            have hstep : (serverStep (.hit targetId sourceId damage) s).1
                = alSet (alSet s targetId { t with hp := 0, isDead := true })
                    sourceId { q0 with score := q0.score + 1 } := by
              simp [serverStep, ht, hd, hle, hq0, alModify, hs1src]
            refine ⟨{ t with hp := 0, isDead := true }, ?_, ?_, ?_, ?_, ?_⟩
            · rw [hstep, alFind_alSet_ne _ _ _ _ htgt]
              exact alFind_alSet_self _ _ _
            · simp [hmax]
            · simp
            · intro q hq
              have hqq : q = q0 := (Option.some_injective _ hq).symm
              rw [hstep]
              simp [alFind_alSet_self, hle, hqq]
            · intro k hk
              rw [hstep, alFind_alSet_ne _ _ _ _ hk]
              by_cases hkt : k = targetId
              · subst hkt
                rw [alFind_alSet_self, ht]
                rfl
              · rw [alFind_alSet_ne _ _ _ _ hkt]
    · have hpos : 0 < t.hp - damage := not_le.mp hle
      have hmax : max 0 (t.hp - damage) = t.hp - damage :=
        max_eq_right (le_of_lt hpos)
      have hstep : (serverStep (.hit targetId sourceId damage) s).1
          = alSet s targetId { t with hp := t.hp - damage } := by
        simp [serverStep, ht, hd, hle]
      refine ⟨{ t with hp := t.hp - damage }, ?_, ?_, ?_, ?_, ?_⟩
      · rw [hstep]
        exact alFind_alSet_self _ _ _
      · simp [hmax]
      · simp [hd, ne_of_gt hpos]
      · intro q hq
        by_cases hsrct : sourceId = targetId
        · subst hsrct
          have hqt : q = t := by
            rw [ht] at hq
            exact (Option.some_injective _ hq).symm
          rw [hstep]
          simp [alFind_alSet_self, hle, hqt]
        · rw [hstep, alFind_alSet_ne _ _ _ _ hsrct, hq]
          simp [hle]
      · intro k hk
        rw [hstep]
        by_cases hkt : k = targetId
        · subst hkt
          rw [alFind_alSet_self, ht]
          rfl
        · rw [alFind_alSet_ne _ _ _ _ hkt]

/-- A concrete two-player room used to instantiate hypothesised theorems. -/
def demoA : Player :=
  { id := "a", nickname := "A", position := ⟨0, 1, 0⟩, rotation := 0,
    hp := 100, score := 0, isDead := false, team := Team.blue }

/-- Second player of the demonstration room. -/
def demoB : Player :=
  { id := "b", nickname := "B", position := ⟨0, 1, 0⟩, rotation := 0,
    hp := 100, score := 3, isDead := false, team := Team.red }

/-- The demonstration room store. -/
def demoStore : Store := [("a", demoA), ("b", demoB)]

/-- Concrete run of `c1_hit`: a hit of 30 on alive player "a" from "b". -/
theorem c1_witness :
    ∃ t1,
      alFind (serverStep (.hit "a" "b" 30) demoStore).1 "a" = some t1 ∧
      t1.hp = max 0 (demoA.hp - 30) ∧
      (t1.isDead = true ↔ t1.hp = 0) ∧
      (∀ q, alFind demoStore "b" = some q →
          (alFind (serverStep (.hit "a" "b" 30) demoStore).1 "b").map
              Player.score =
            some (q.score + (if demoA.hp - 30 ≤ 0 then 1 else 0))) ∧
      (∀ k, k ≠ "b" →
          (alFind (serverStep (.hit "a" "b" 30) demoStore).1 k).map
              Player.score =
            (alFind demoStore k).map Player.score) :=
  (c1_hit demoStore "a" "b" 30).2.2 demoA (by decide) (by decide)

/-- Claim C8: the server does not exclude self-hits — a `hit` whose source
and target name the same alive player, with damage at least that player's hp,
marks the player dead with hp 0 and increments that same player's own score
by 1. -/
theorem c8_self_hit (s : Store) (id : String) (damage : ℚ) (t : Player)
    (hf : alFind s id = some t) (halive : t.isDead = false)
    (hd : t.hp ≤ damage) :
    alFind (serverStep (.hit id id damage) s).1 id =
      some { t with hp := 0, isDead := true, score := t.score + 1 } := by
  have hle : t.hp - damage ≤ 0 := by linarith
  have hstep : (serverStep (.hit id id damage) s).1
      = alSet (alSet s id { t with hp := 0, isDead := true }) id
          { t with hp := 0, isDead := true, score := t.score + 1 } := by
    simp [serverStep, hf, halive, hle, alModify, alFind_alSet_self]
  rw [hstep]
  exact alFind_alSet_self _ _ _

/-- Concrete run of `c8_self_hit`: "a" lands a lethal self-hit of 150. -/
theorem c8_witness :
    alFind (serverStep (.hit "a" "a" 150) demoStore).1 "a" =
      some { demoA with hp := 0, isDead := true, score := demoA.score + 1 } :=
  c8_self_hit demoStore "a" 150 demoA (by decide) (by decide) (by decide)

/-- Claim C9: the client mirror's `updatePlayer` never drops an unknown id —
an absent id gets a fresh entry appended, built from the defaults (nickname
"Unknown", position `(0,1,0)`, rotation 0, hp 100, alive, score 0, color
"#ffffff", team blue) merged with the supplied fields, and the GameScene
`update`-message path inherits this for an unknown id. -/
theorem c9_updatePlayer_insert (s : CStore) (id : String) (d : Patch)
    (h : alFind s id = none) :
    updatePlayer s id d = s ++ [(id, applyPatch (initPlayer id) d)] ∧
    alFind (updatePlayer s id d) id =
      some { id := d.id.getD id
             nickname := d.nickname.getD "Unknown"
             position := d.position.getD ⟨0, 1, 0⟩
             rotation := d.rotation.getD 0
             hp := d.hp.getD 100
             isDead := d.isDead.getD false
             score := d.score.getD 0
             color := d.color.getD "#ffffff"
             team := d.team.getD Team.blue } ∧
    (updatePlayer s id d).length = s.length + 1 ∧
    (∀ myId pos rot,
        alFind (gameSceneOnMessage myId (.update id pos rot) s) id =
          some { id := id, nickname := "Unknown", position := pos,
                 rotation := rot, hp := 100, isDead := false, score := 0,
                 color := "#ffffff", team := Team.blue }) := by
  have h1 : updatePlayer s id d = s ++ [(id, applyPatch (initPlayer id) d)] := by
    simp [updatePlayer, h]
  refine ⟨h1, ?_, ?_, ?_⟩
  · rw [h1, alFind_append_of_none _ _ _ h]
    simp [alFind, applyPatch, initPlayer]
  · rw [h1]
    simp
  · intro myId pos rot
    have h2 : updatePlayer s id
        { position := some pos, rotation := some rot }
        = s ++ [(id, applyPatch (initPlayer id)
            { position := some pos, rotation := some rot })] := by
      simp [updatePlayer, h]
    show alFind (updatePlayer s id
        { position := some pos, rotation := some rot }) id = _
    rw [h2, alFind_append_of_none _ _ _ h]
    simp [alFind, applyPatch, initPlayer]

/-- Concrete run of `c9_updatePlayer_insert`: an hp-only patch for an id
absent from the empty mirror. -/
theorem c9_witness :
    alFind (updatePlayer [] "n1" { hp := some 40 }) "n1" =
      some { id := "n1", nickname := "Unknown", position := ⟨0, 1, 0⟩,
             rotation := 0, hp := 40, isDead := false, score := 0,
             color := "#ffffff", team := Team.blue } :=
  (c9_updatePlayer_insert [] "n1" { hp := some 40 } rfl).2.1

/-- Claim C10: the bullet collision callback emits a `hit` only when the
bullet's owner is the local player and the collided target id is present and
differs from the local id; the emitted message never names the local id as
its target, and its source is the local id. -/
theorem c10_owner_only (ownerId myId : String) (socketOpen : Bool)
    (targetId : Option String) (m : String × String × ℚ)
    (h : bulletOnHit ownerId myId socketOpen targetId = some m) :
    ownerId = myId ∧
    ∃ t, targetId = some t ∧ t ≠ myId ∧ m.1 = t ∧ m.1 ≠ myId ∧
      m.2.1 = myId := by
  cases targetId with
  | none => simp [bulletOnHit] at h
  | some t =>
      by_cases hc : ownerId = myId ∧ t ≠ "" ∧ t ≠ myId
      · cases socketOpen with
        | false => simp [bulletOnHit, hc] at h
        | true =>
            have hm : m = (t, myId, 10) := by
              simp [bulletOnHit, hc] at h
              exact h.symm
            exact ⟨hc.1, t, rfl, hc.2.2, by simp [hm], by simp [hm, hc.2.2],
              by simp [hm]⟩
      · simp [bulletOnHit, hc] at h

/-- Concrete run of `c10_owner_only`: the local player's own bullet hits a
remote player "b" while the socket is open. -/
theorem c10_witness :
    ("me" : String) = "me" ∧
    ∃ t, (some "b" : Option String) = some t ∧ t ≠ "me" ∧
      (("b", "me", (10 : ℚ)) : String × String × ℚ).1 = t ∧
      (("b", "me", (10 : ℚ)) : String × String × ℚ).1 ≠ "me" ∧
      (("b", "me", (10 : ℚ)) : String × String × ℚ).2.1 = "me" :=
  c10_owner_only "me" "me" true (some "b") ("b", "me", 10) (by decide)

/-- Claim C6 counterexample: an unparsable payload is not dropped silently —
`JSON.parse(message)` throws, so the handler fails instead of returning the
unchanged store. -/
theorem c6_counterexample :
    onMessage none ([] : Store) = Except.error JsError.parseError := rfl

/-- Claim C6 (amended): a payload that parses but whose `type` discriminator
is missing or unknown is dropped silently — the handler succeeds with the
store unchanged and nothing broadcast; an unparsable payload instead makes
the handler throw out of `JSON.parse`. -/
theorem c6_amended (s : Store) (tag : Option String) :
    onMessage (some (.other tag)) s = Except.ok (s, ([] : List Out)) ∧
    onMessage none s = Except.error JsError.parseError :=
  ⟨rfl, rfl⟩

theorem alFind_append_of_some {α : Type} (s t : List (String × α))
    (k : String) (v : α) (h : alFind s k = some v) :
    alFind (s ++ t) k = some v := by
  induction s with
  | nil => simp [alFind] at h
  | cons e rest ih =>
      obtain ⟨k1, w⟩ := e
      by_cases h1 : k1 = k
      · subst h1
        simp [alFind] at h ⊢
        exact h
      · simp [alFind, h1] at h ⊢
        exact ih h

theorem alFind_updatePlayer_ne (s : CStore) (id k : String) (d : Patch)
    (h : k ≠ id) : alFind (updatePlayer s id d) k = alFind s k := by
  unfold updatePlayer
  cases hf : alFind s id with
  | none =>
      cases hk : alFind s k with
      | none =>
          rw [alFind_append_of_none _ _ _ hk]
          exact alFind_single_ne _ _ _ h
      | some w => exact alFind_append_of_some _ _ _ _ hk
  | some ex => exact alFind_alSet_ne _ _ _ _ h

theorem gs0_sync_skips_local (myId : String) (ps : List Player) (s : CStore) :
    alFind (ps.foldl
        (fun acc p =>
          if p.id = myId then acc
          else updatePlayer acc p.id (serverPlayerPatch p)) s) myId
      = alFind s myId := by
  induction ps generalizing s with
  | nil => rfl
  | cons p rest ih =>
      rw [List.foldl_cons, ih]
      by_cases hp : p.id = myId
      · rw [if_pos hp]
      · rw [if_neg hp]
        exact alFind_updatePlayer_ne _ _ _ _ (fun hkk => hp hkk.symm)

/-- Claim C2 (amended): in the `src/unnamed/part_000` handler variant, every
incoming `sync` or `update` leaves the locally-controlled id's mirror entry
entirely unchanged — its position and rotation in particular; the handler in
`src/components/GameScene.tsx` has no such exclusion and overwrites the local
entry's position and rotation from `sync`/`update` messages (see the
counterexample). -/
theorem c2_amended (myId : String) (s : CStore) :
    (∀ ps, alFind (gameScene0OnMessage myId (.sync ps) s) myId
        = alFind s myId) ∧
    (∀ id pos rot,
        alFind (gameScene0OnMessage myId (.update id pos rot) s) myId
          = alFind s myId) := by
  constructor
  · intro ps
    exact gs0_sync_skips_local myId ps s
  · intro id pos rot
    show alFind (if id = myId then s
        else updatePlayer s id
          { position := some pos, rotation := some rot }) myId = _
    by_cases hid : id = myId
    · rw [if_pos hid]
    · rw [if_neg hid]
      exact alFind_updatePlayer_ne _ _ _ _ (fun hkk => hid hkk.symm)

/-- Claim C2 counterexample: in `src/components/GameScene.tsx`, a `sync`
whose payload contains the local id overwrites the local mirror entry's
position — it is not left unchanged. -/
theorem c2_counterexample :
    (alFind (gameSceneOnMessage "me"
          (.sync [{ id := "me", nickname := "N", position := ⟨5, 5, 5⟩,
                    rotation := 2, hp := 80, score := 1, isDead := false,
                    team := Team.blue }])
          [("me", { id := "me", nickname := "N", position := ⟨0, 1, 0⟩,
                    rotation := 0, hp := 100, isDead := false, score := 0,
                    color := "#3b82f6", team := Team.blue })]) "me").map
        CPlayer.position = some ⟨5, 5, 5⟩ ∧
    (alFind [("me", ({ id := "me", nickname := "N", position := ⟨0, 1, 0⟩,
                       rotation := 0, hp := 100, isDead := false, score := 0,
                       color := "#3b82f6", team := Team.blue } : CPlayer))]
        "me").map CPlayer.position = some ⟨0, 1, 0⟩ ∧
    (some (⟨5, 5, 5⟩ : V3) ≠ some (⟨0, 1, 0⟩ : V3)) := by
  refine ⟨?_, ?_, ?_⟩ <;> decide

theorem lerp1_err (d t a : ℚ) : lerp1 d t a - t = (d - t) * (1 - a) := by
  unfold lerp1
  ring

theorem lerp1_between (d t a : ℚ) (h0 : 0 ≤ a) (h1 : a ≤ 1) :
    min d t ≤ lerp1 d t a ∧ lerp1 d t a ≤ max d t := by
  unfold lerp1
  rcases le_total d t with hdt | hdt
  · rw [min_eq_left hdt, max_eq_right hdt]
    constructor <;> nlinarith
  · rw [min_eq_right hdt, max_eq_left hdt]
    constructor <;> nlinarith

/-- Claim C7 (amended): the Opponent tick advances the displayed position by
`displayed += (target - displayed) * (10 * dt)` with the factor unclamped
(three.js `lerp` does not clamp); whenever `10 * dt ≤ 1` this coincides with
the spec's `min(1, 10*dt)` rule, the error shrinks by the factor
`1 - 10*dt` in every component, and the new position stays between the old
one and the target; for `10 * dt > 1` the tick overshoots (see the
counterexample). -/
theorem c7_amended (displayed target : V3) (delta : ℚ)
    (h0 : 0 < delta) (h1 : 10 * delta ≤ 1) :
    ((opponentTick displayed target delta).x - target.x
        = (displayed.x - target.x) * (1 - 10 * delta) ∧
     (opponentTick displayed target delta).y - target.y
        = (displayed.y - target.y) * (1 - 10 * delta) ∧
     (opponentTick displayed target delta).z - target.z
        = (displayed.z - target.z) * (1 - 10 * delta)) ∧
    (min displayed.x target.x ≤ (opponentTick displayed target delta).x ∧
     (opponentTick displayed target delta).x ≤ max displayed.x target.x) ∧
    (min displayed.y target.y ≤ (opponentTick displayed target delta).y ∧
     (opponentTick displayed target delta).y ≤ max displayed.y target.y) ∧
    (min displayed.z target.z ≤ (opponentTick displayed target delta).z ∧
     (opponentTick displayed target delta).z ≤ max displayed.z target.z) ∧
    opponentTick displayed target delta
      = specSmoothTick displayed target delta := by
  have ha0 : 0 ≤ 10 * delta := by linarith
  refine ⟨⟨lerp1_err _ _ _, lerp1_err _ _ _, lerp1_err _ _ _⟩,
    lerp1_between _ _ _ ha0 h1, lerp1_between _ _ _ ha0 h1,
    lerp1_between _ _ _ ha0 h1, ?_⟩
  unfold opponentTick specSmoothTick
  rw [min_eq_right h1]

/-- Concrete run of `c7_amended` at `dt = 1/20`. -/
theorem c7_witness :
    (opponentTick ⟨0, 0, 0⟩ ⟨1, 2, 3⟩ (1 / 20)).x - (1 : ℚ)
      = ((0 : ℚ) - 1) * (1 - 10 * (1 / 20)) :=
  ((c7_amended ⟨0, 0, 0⟩ ⟨1, 2, 3⟩ (1 / 20) (by norm_num)
      (by norm_num)).1).1

/-- Claim C7 counterexample: at `dt = 1/5` (so `k*dt = 2`) the code's tick
jumps from 0 past the target 1 to 2 — it overshoots and differs from the
spec's `min(1, k*dt)` rule, which would land exactly on the target. -/
theorem c7_counterexample :
    (opponentTick ⟨0, 0, 0⟩ ⟨1, 0, 0⟩ (1 / 5)).x = 2 ∧
    (specSmoothTick ⟨0, 0, 0⟩ ⟨1, 0, 0⟩ (1 / 5)).x = 1 ∧
    opponentTick ⟨0, 0, 0⟩ ⟨1, 0, 0⟩ (1 / 5)
      ≠ specSmoothTick ⟨0, 0, 0⟩ ⟨1, 0, 0⟩ (1 / 5) ∧
    ¬ (opponentTick ⟨0, 0, 0⟩ ⟨1, 0, 0⟩ (1 / 5)).x ≤ max (0 : ℚ) 1 := by
  have hmin : min (1 : ℚ) (10 * (1 / 5)) = 1 := by
    rw [min_eq_left]
    norm_num
  have hx : (opponentTick ⟨0, 0, 0⟩ ⟨1, 0, 0⟩ (1 / 5)).x = 2 := by
    norm_num [opponentTick, lerp1]
  have hsp : (specSmoothTick ⟨0, 0, 0⟩ ⟨1, 0, 0⟩ (1 / 5)).x = 1 := by
    simp only [specSmoothTick, lerp1, hmin]
    norm_num
  have hmax : max (0 : ℚ) 1 = 1 := max_eq_right (by norm_num)
  refine ⟨hx, hsp, ?_, ?_⟩
  · intro h
    rw [h, hsp] at hx
    norm_num at hx
  · rw [hx, hmax]
    norm_num

/-- All health values of a store lie in the interval `[0, 100]`. -/
def HpOk (s : Store) : Prop := ∀ e ∈ s, 0 ≤ e.2.hp ∧ e.2.hp ≤ 100

/-- The event carries no negative damage value. -/
def evOk : Ev → Bool
  | .msg (.hit _ _ d) => decide (0 ≤ d)
  | _ => true

theorem hpOk_alSet (s : Store) (k : String) (v : Player) (hs : HpOk s)
    (h0 : 0 ≤ v.hp) (h1 : v.hp ≤ 100) : HpOk (alSet s k v) := by
  intro e he
  rcases mem_alSet s k v e he with hm | hm
  · exact hs e hm
  · rw [hm]
    exact ⟨h0, h1⟩

theorem hpOk_alModify_score (s : Store) (k : String) (hs : HpOk s) :
    HpOk (alModify s k (fun q => { q with score := q.score + 1 })) := by
  unfold alModify
  cases hf : alFind s k with
  | none => exact hs
  | some v =>
      have hv := hs (k, v) (alFind_mem _ _ _ hf)
      exact hpOk_alSet s k _ hs hv.1 hv.2

theorem hpOk_evStep (s : Store) (e : Ev) (hs : HpOk s)
    (he : evOk e = true) : HpOk (evStep s e) := by
  cases e with
  | close id =>
      intro x hx
      exact hs x (List.mem_of_mem_filter hx)
  | msg m =>
      cases m with
      | join id nickname =>
          apply hpOk_alSet s id _ hs
          · norm_num [joinedPlayer]
          · norm_num [joinedPlayer]
      | update id pos rot =>
          show HpOk (serverStep (.update id pos rot) s).1
          cases hf : alFind s id with
          | none => simpa [serverStep, hf] using hs
          | some p =>
              have hp := hs (id, p) (alFind_mem _ _ _ hf)
              simp only [serverStep, hf]
              exact hpOk_alSet s id _ hs hp.1 hp.2
      | shoot id pos dir => exact hs
      | other tag => exact hs
      | hit targetId sourceId damage =>
          have hdmg : (0 : ℚ) ≤ damage := of_decide_eq_true he
          show HpOk (serverStep (.hit targetId sourceId damage) s).1
          cases hf : alFind s targetId with
          | none => simpa [serverStep, hf] using hs
          | some t =>
              have htin := hs (targetId, t) (alFind_mem _ _ _ hf)
              by_cases hdead : t.isDead
              · simpa [serverStep, hf, hdead] using hs
              · by_cases hle : t.hp - damage ≤ 0
                · have hs1 : HpOk (alSet s targetId
                      { t with hp := 0, isDead := true }) :=
                    hpOk_alSet s targetId _ hs (by norm_num) (by norm_num)
                  simp only [serverStep, hf, hdead, hle, if_true, if_false,
                    Bool.false_eq_true, ite_false, ite_true]
                  by_cases hsrc : (alFind s sourceId).isSome
                  · simpa [hsrc] using hpOk_alModify_score _ sourceId hs1
                  · simpa [hsrc] using hs1
                · have h0 : 0 ≤ t.hp - damage := le_of_lt (not_le.mp hle)
                  have h1 : t.hp - damage ≤ 100 := by
                    have := htin.2
                    linarith
                  simp only [serverStep, hf, hdead, hle, Bool.false_eq_true,
                    ite_false]
                  exact hpOk_alSet s targetId _ hs h0 h1

theorem foldl_hpOk (evs : List Ev) :
    ∀ s, (∀ e ∈ evs, evOk e = true) → HpOk s →
      HpOk (evs.foldl evStep s) := by
  induction evs with
  | nil =>
      intro s _ hs
      exact hs
  | cons e rest ih =>
      intro s h hs
      rw [List.foldl_cons]
      exact ih _ (fun x hx => h x (List.mem_cons_of_mem _ hx))
        (hpOk_evStep s e hs (h e (List.mem_cons_self _ _)))

/-- Claim C3 (amended): over every sequence of join/update/shoot/hit/
disconnect events in which no `hit` carries a negative damage value, every
player's hp in the reachable store lies in `[0, 100]`; the code clamps hp
only from below, so a negative (healing) damage value — which the relay
trusts from the message — breaks the upper bound (see the counterexample). -/
theorem c3_amended (evs : List Ev) (h : ∀ e ∈ evs, evOk e = true) :
    HpOk (runEvents evs) := by
  have hemp : HpOk ([] : Store) := by
    intro e he
    simp at he
  exact foldl_hpOk evs [] h hemp

/-- Concrete run of `c3_amended` over a five-event session. -/
theorem c3_witness :
    HpOk (runEvents [.msg (.join "a" "x"), .msg (.join "b" "y"),
      .msg (.hit "a" "b" 30), .msg (.update "a" ⟨2, 1, 2⟩ 1),
      .close "b"]) :=
  c3_amended _ (by decide)

/-- Claim C3 counterexample: the claim quantifies over arbitrary damage
values, and a `hit` carrying damage `-1` pushes a full-health player to
hp 101, outside `[0, 100]`. -/
theorem c3_counterexample :
    ¬ HpOk (runEvents [.msg (.join "a" "x"), .msg (.hit "a" "a" (-1))]) := by
  intro h
  have hrun : (alFind (runEvents [.msg (.join "a" "x"),
        .msg (.hit "a" "a" (-1))]) "a").map Player.hp = some 101 := by
    norm_num [runEvents, evStep, serverStep, joinedPlayer, alFind, alSet,
      alModify]
  cases hfind : alFind (runEvents [.msg (.join "a" "x"),
      .msg (.hit "a" "a" (-1))]) "a" with
  | none =>
      rw [hfind] at hrun
      simp at hrun
  | some p =>
      rw [hfind] at hrun
      simp at hrun
      have hb := (h ("a", p) (alFind_mem _ _ _ hfind)).2
      rw [hrun] at hb
      norm_num at hb

theorem buildFrom_length (n : Nat) (ps : List (String × String)) :
    (buildFrom n ps).length = ps.length := by
  induction ps generalizing n with
  | nil => rfl
  | cons q rest ih =>
      obtain ⟨id, nick⟩ := q
      simp [buildFrom, ih]

theorem buildFrom_team (n : Nat) (ps : List (String × String)) (i : Nat)
    (hi : i < (buildFrom n ps).length) :
    ((buildFrom n ps).get ⟨i, hi⟩).2.team
      = (if (n + i) % 2 = 0 then Team.blue else Team.red) := by
  induction ps generalizing n i with
  | nil => simp [buildFrom] at hi
  | cons q rest ih =>
      obtain ⟨id, nick⟩ := q
      cases i with
      | zero => simp [buildFrom, joinedPlayer]
      | succ j =>
          have hj : j < (buildFrom (n + 1) rest).length := by
            have := hi
            simp [buildFrom] at this
            omega
          have hrec := ih (n + 1) j hj
          have hstep : ((buildFrom n ((id, nick) :: rest)).get
              ⟨j + 1, hi⟩) = (buildFrom (n + 1) rest).get ⟨j, hj⟩ := rfl
          rw [hstep, hrec]
          have harith : n + 1 + j = n + (j + 1) := by omega
          rw [harith]

theorem applyJoins_append (s : Store) (a b : List (String × String)) :
    applyJoins s (a ++ b) = applyJoins (applyJoins s a) b := by
  induction a generalizing s with
  | nil => rfl
  | cons q rest ih =>
      obtain ⟨id, nick⟩ := q
      show applyJoins (serverStep (.join id nick) s).1 (rest ++ b) = _
      rw [ih]
      rfl

theorem applyJoins_fresh (ps : List (String × String)) :
    ∀ s : Store, (ps.map Prod.fst).Nodup →
      (∀ q ∈ ps, alFind s q.1 = none) →
      applyJoins s ps = s ++ buildFrom s.length ps := by
  induction ps with
  | nil =>
      intro s _ _
      simp [applyJoins, buildFrom]
  | cons q rest ih =>
      intro s hnd hf
      obtain ⟨id, nick⟩ := q
      simp only [List.map_cons] at hnd
      have hnd2 := List.nodup_cons.mp hnd
      have hfid : alFind s id = none := hf (id, nick) (List.mem_cons_self _ _)
      have hset : (serverStep (.join id nick) s).1
          = s ++ [(id, joinedPlayer id nick s.length)] := by
        show alSet s id (joinedPlayer id nick s.length) = _
        exact alSet_of_not_found _ _ _ hfid
      have hf2 : ∀ q' ∈ rest,
          alFind (s ++ [(id, joinedPlayer id nick s.length)]) q'.1 = none := by
        intro q' hq'
        have h1 : alFind s q'.1 = none := hf q' (List.mem_cons_of_mem _ hq')
        have h2 : q'.1 ≠ id := by
          intro hcontra
          exact hnd2.1 (by
            rw [← hcontra]
            exact List.mem_map_of_mem Prod.fst hq')
        rw [alFind_append_of_none _ _ _ h1]
        exact alFind_single_ne _ _ _ h2
      show applyJoins (serverStep (.join id nick) s).1 rest = _
      rw [hset, ih _ hnd2.2 hf2]
      simp [buildFrom, List.append_assoc]

/-- Claim C4 (amended): for fresh joins with pairwise distinct ids, the sync
broadcast after the N-th join carries the store reached after N joins, that
store holds exactly N players, and their teams alternate strictly by join
order starting with blue; a duplicated id breaks both the count and the
alternation (see the counterexample). -/
theorem c4_amended (ps : List (String × String))
    (hnd : (ps.map Prod.fst).Nodup) :
    (applyJoins [] ps).length = ps.length ∧
    (∀ i (hi : i < (applyJoins [] ps).length),
        ((applyJoins [] ps).get ⟨i, hi⟩).2.team
          = (if i % 2 = 0 then Team.blue else Team.red)) ∧
    (∀ pre id nick, ps = pre ++ [(id, nick)] →
        (serverStep (.join id nick) (applyJoins [] pre)).2
          = [Out.sync (applyJoins [] ps)]) := by
  have hrun : applyJoins [] ps = buildFrom 0 ps := by
    have h := applyJoins_fresh ps [] hnd (fun q _ => rfl)
    simpa using h
  refine ⟨?_, ?_, ?_⟩
  · rw [hrun, buildFrom_length]
  · intro i hi
    have hi2 : i < (buildFrom 0 ps).length := by
      rw [← hrun]
      exact hi
    have hg := List.get_of_eq hrun ⟨i, hi⟩
    rw [hg]
    simpa using buildFrom_team 0 ps i hi2
  · intro pre id nick hps
    subst hps
    have happ : applyJoins [] (pre ++ [(id, nick)])
        = (serverStep (.join id nick) (applyJoins [] pre)).1 := by
      rw [applyJoins_append]
      rfl
    rw [happ]
    rfl

/-- Concrete run of `c4_amended`: two distinct joins give a two-player
store. -/
theorem c4_witness :
    (applyJoins [] [("a", "x"), ("b", "y")]).length
      = [(("a" : String), ("x" : String)), ("b", "y")].length :=
  (c4_amended [("a", "x"), ("b", "y")] (by decide)).1

/-- Claim C4 counterexample: two `join` messages sharing one id — the sync
after the second join carries a store with 1 player, not 2, and that sole
first-joined player holds team red, though alternation starting with blue
requires the first entry to be blue. -/
theorem c4_counterexample :
    (serverStep (.join "a" "n") (applyJoins [] [("a", "n")])).2
      = [Out.sync (applyJoins [] [("a", "n"), ("a", "n")])] ∧
    (applyJoins [] [("a", "n"), ("a", "n")]).length = 1 ∧
    ((applyJoins [] [("a", "n"), ("a", "n")]).map (fun e => e.2.team))
      = [Team.red] := by
  refine ⟨rfl, rfl, ?_⟩
  decide

/-- Claim C5 (amended): a re-join for an id already present keeps exactly
one record for that id, in place — key order, store size and every other
entry unchanged — and resets the record to the join defaults (nickname,
position `(0,1,0)`, rotation 0, hp 100, score 0, alive), but the team is
recomputed from the parity of the current player count, which now includes
the re-joining player, so the resulting store need not equal the store after
a single join: a lone re-joining player flips from blue to red (see the
counterexample), hence re-join is not idempotent as claimed. -/
theorem c5_amended (s : Store) (id nick : String)
    (hmem : (alFind s id).isSome) :
    ((serverStep (.join id nick) s).1).map Prod.fst = s.map Prod.fst ∧
    alFind (serverStep (.join id nick) s).1 id
      = some (joinedPlayer id nick s.length) ∧
    (∀ k, k ≠ id → alFind (serverStep (.join id nick) s).1 k = alFind s k) ∧
    ((s.map Prod.fst).Nodup →
        (((serverStep (.join id nick) s).1).map Prod.fst).count id = 1) := by
  refine ⟨alSet_keys_of_found _ _ _ hmem, alFind_alSet_self _ _ _,
    ?_, ?_⟩
  · intro k hk
    exact alFind_alSet_ne _ _ _ _ hk
  · intro hnd
    have hkeys : ((serverStep (.join id nick) s).1).map Prod.fst
        = s.map Prod.fst := alSet_keys_of_found _ _ _ hmem
    rw [hkeys]
    obtain ⟨v, hv⟩ := Option.isSome_iff_exists.mp hmem
    have hmem2 : id ∈ s.map Prod.fst :=
      List.mem_map_of_mem Prod.fst (alFind_mem _ _ _ hv)
    exact List.count_eq_one_of_mem hnd hmem2

/-- Concrete run of `c5_amended`: "a" re-joins the demonstration room. -/
theorem c5_witness :
    alFind (serverStep (.join "a" "NewNick") demoStore).1 "a"
      = some (joinedPlayer "a" "NewNick" demoStore.length) :=
  (c5_amended demoStore "a" "NewNick" (by decide)).2.1

/-- Claim C5 counterexample: from the empty room, `join("a")` followed by an
identical second `join("a")` does not reproduce the single-join store — the
second join recomputes the team from the player count 1 and flips "a" from
blue to red. -/
theorem c5_counterexample :
    (serverStep (.join "a" "n")
        (serverStep (.join "a" "n") ([] : Store)).1).1
      ≠ (serverStep (.join "a" "n") ([] : Store)).1 := by
  decide

end PolyArena
